import Mathlib

/-!
Shallow embedding of the connection/presence/fanout subsystem of the
SocketChat server (src/server.ts together with src/services/client.ts).

JavaScript `Map` objects (`clients`, `presence`) are embedded as
insertion-ordered association lists with `Map.set` / `Map.delete` /
`Map.get` semantics.  The Redis liveness store is embedded as a map from
key to expiry deadline together with the current time; `SET ... EX 10`
stores the deadline `now + 10` and `EXISTS` checks `now < deadline`.
Store outages are embedded by a `redisUp` flag: when it is false, a
store call aborts the handler, leaving the mutations that follow the
`await` unexecuted and letting the rejection escape uncaught
(`Output.uncaughtRejection`).
-/

namespace SocketChat

/-- Presence status, the values of the `presence` map in server.ts. -/
inductive PStatus
  | online
  | offline
deriving DecidableEq

/-- The `Client` class of src/services/client.ts: a userId bound to a
socket; `isOpen` embeds `socket.readyState === OPEN`. -/
structure Client where
  userId : String
  sock : Nat
  isOpen : Bool
deriving DecidableEq

/-- Insertion-ordered association list, the embedding of a JS `Map`. -/
abbrev AList (β : Type) := List (String × β)

/-- `Map.get`: value at the (unique) entry for `k`, if present. -/
def mapLookup {β : Type} : AList β → String → Option β
  | [], _ => none
  | kv :: rest, k => if kv.1 = k then some kv.2 else mapLookup rest k

/-- `Map.set`: replace the entry for `k` in place, or append a new one. -/
def mapSet {β : Type} : AList β → String → β → AList β
  | [], k, v => [(k, v)]
  | kv :: rest, k, v => if kv.1 = k then (k, v) :: rest else kv :: mapSet rest k v

/-- `Map.delete`: remove the entry for `k` if present. -/
def mapDelete {β : Type} : AList β → String → AList β
  | [], _ => []
  | kv :: rest, k => if kv.1 = k then mapDelete rest k else kv :: mapDelete rest k

/-- `Map.keys()`. -/
def mapKeys {β : Type} (m : AList β) : List String := m.map (·.1)

/-- The NEW_MESSAGE payload built in the /chat/message handler. -/
structure MsgPayload where
  conversation_id : String
  message_id : String
  sender_id : String
  content : String
  created_at : String
deriving DecidableEq

/-- Outbound events (the serialized frames written to sockets). -/
inductive OutMsg
  | presenceUpdate (onlineUsers : List String)
  | newMessage (payload : MsgPayload)
deriving DecidableEq

/-- Observable effects of the handlers. -/
inductive Output
  | send (c : Client) (m : OutMsg)
  | closeConn (code : Nat) (reason : String)
  | uncaughtRejection
deriving DecidableEq

/-- `Client.send`: writes iff the socket is OPEN, else silently drops. -/
def Client.send (c : Client) (m : OutMsg) : Option Output :=
  if c.isOpen then some (Output.send c m) else none

/-- The global mutable state of server.ts: the `clients` registry, the
`presence` cache, the Redis liveness keys (key to expiry deadline) and
the current time. -/
structure ServerState where
  clients : AList Client
  presence : AList PStatus
  redis : AList Nat
  now : Nat
deriving DecidableEq

def initState : ServerState := ⟨[], [], [], 0⟩

/-- The Redis key user:...:online used for liveness. -/
def livenessKey (u : String) : String := "user:" ++ u ++ ":online"

/-- `redisClient.exists`: a key exists while the clock is before its
expiry deadline. -/
def redisExists (redis : AList Nat) (now : Nat) (k : String) : Bool :=
  match mapLookup redis k with
  | some deadline => decide (now < deadline)
  | none => false

/-- The list of ONLINE identities computed by `broadcastPresence`. -/
def onlineUsersOf (pres : AList PStatus) : List String :=
  (pres.filter (fun kv => kv.2 = PStatus.online)).map (·.1)

/-- `broadcastPresence`: sends PRESENCE_UPDATE with the current online
list to every registered client (each send guarded by readyState). -/
def broadcastPresence (cls : AList Client) (pres : AList PStatus) : List Output :=
  cls.filterMap (fun kc => kc.2.send (OutMsg.presenceUpdate (onlineUsersOf pres)))

/-- The `wss.on("connection")` handler: with a userId, register a fresh
Client; without one, close the socket with code 4000. -/
def wsConnect (st : ServerState) (userId : Option String) (sock : Nat) :
    ServerState × List Output :=
  match userId with
  | none => (st, [Output.closeConn 4000 "Missing userId"])
  | some u => ({ st with clients := mapSet st.clients u ⟨u, sock, true⟩ }, [])

/-- Inbound data on a socket: unparseable JSON, or a JSON object whose
`type` field is the given optional string. -/
inductive InFrame
  | malformed
  | obj (type : Option String)
deriving DecidableEq

/-- The `socket.on("message")` handler for the connection of `userId`:
malformed JSON is logged and dropped; only type HEARTBEAT acts, by
refreshing the Redis key with a 10-second expiry, caching ONLINE and
broadcasting; with the store down the awaited `redisClient.set` rejects
before either mutation runs. -/
def handleMessage (st : ServerState) (userId : String) (redisUp : Bool)
    (f : InFrame) : ServerState × List Output :=
  match f with
  | InFrame.malformed => (st, [])
  | InFrame.obj t =>
    if t = some "HEARTBEAT" then
      if redisUp then
        let st1 := { st with
          redis := mapSet st.redis (livenessKey userId) (st.now + 10),
          presence := mapSet st.presence userId PStatus.online }
        (st1, broadcastPresence st1.clients st1.presence)
      else (st, [Output.uncaughtRejection])
    else (st, [])

/-- The `socket.on("close")` handler: only `clients.delete(userId)`. -/
def wsClose (st : ServerState) (userId : String) : ServerState × List Output :=
  ({ st with clients := mapDelete st.clients userId }, [])

/-- Loop body of the `setInterval` sweep over `clients.keys()`: for each
registered userId, check the Redis key; if absent and the cached status
is not OFFLINE, cache OFFLINE and broadcast; a store failure rejects at
the first `exists` call, aborting the remainder of the loop. -/
def sweepGo (redisUp : Bool) (redis : AList Nat) (now : Nat) (cls : AList Client) :
    List String → AList PStatus → AList PStatus × List Output
  | [], pres => (pres, [])
  | u :: rest, pres =>
    if redisUp then
      if redisExists redis now (livenessKey u) then
        sweepGo redisUp redis now cls rest pres
      else if mapLookup pres u = some PStatus.offline then
        sweepGo redisUp redis now cls rest pres
      else
        let pres1 := mapSet pres u PStatus.offline
        let outs := broadcastPresence cls pres1
        let r := sweepGo redisUp redis now cls rest pres1
        (r.1, outs ++ r.2)
    else (pres, [Output.uncaughtRejection])

/-- One run of the periodic sweep. -/
def sweep (st : ServerState) (redisUp : Bool) : ServerState × List Output :=
  let r := sweepGo redisUp st.redis st.now st.clients (mapKeys st.clients) st.presence
  ({ st with presence := r.1 }, r.2)

/-- NEW_MESSAGE fanout of the /chat/message handler: for each
participant, look up the registry and send through the handle if one
exists (Client.send drops non-open sockets). -/
def fanoutNewMessage (cls : AList Client) (participants : List String)
    (payload : MsgPayload) : List Output :=
  participants.filterMap
    (fun p => (mapLookup cls p).bind (fun c => c.send (OutMsg.newMessage payload)))

/-- Input events driving the subsystem. -/
inductive Ev
  | connect (u : String) (sock : Nat)
  | connectNoId (sock : Nat)
  | frame (u : String) (redisUp : Bool) (f : InFrame)
  | close (u : String)
  | sweepEv (redisUp : Bool)
  | message (participants : List String) (payload : MsgPayload)
  | tick (n : Nat)
deriving DecidableEq

/-- One step of the subsystem. -/
def stepFn (st : ServerState) : Ev → ServerState × List Output
  | Ev.connect u sock => wsConnect st (some u) sock
  | Ev.connectNoId sock => wsConnect st none sock
  | Ev.frame u r f => handleMessage st u r f
  | Ev.close u => wsClose st u
  | Ev.sweepEv r => sweep st r
  | Ev.message ps pl => (st, fanoutNewMessage st.clients ps pl)
  | Ev.tick n => ({ st with now := st.now + n }, [])

/-- Run a sequence of events, collecting the outputs. -/
def run (st : ServerState) : List Ev → ServerState × List Output
  | [] => (st, [])
  | e :: es =>
    let r := stepFn st e
    let r2 := run r.1 es
    (r2.1, r.2 ++ r2.2)

/-- True exactly on connection-open events for identity `u`. -/
def isConnectOf (u : String) : Ev → Bool
  | Ev.connect v _ => v = u
  | _ => false

/-! ### Association-list lemmas -/

theorem mapLookup_nil {β : Type} (k : String) :
    mapLookup ([] : AList β) k = none := rfl

theorem mapLookup_cons {β : Type} (kv : String × β) (rest : AList β) (k : String) :
    mapLookup (kv :: rest) k = if kv.1 = k then some kv.2 else mapLookup rest k := rfl

theorem mapSet_nil {β : Type} (k : String) (v : β) :
    mapSet ([] : AList β) k v = [(k, v)] := rfl

theorem mapSet_cons {β : Type} (kv : String × β) (rest : AList β) (k : String) (v : β) :
    mapSet (kv :: rest) k v =
      if kv.1 = k then (k, v) :: rest else kv :: mapSet rest k v := rfl

theorem mapDelete_cons {β : Type} (kv : String × β) (rest : AList β) (k : String) :
    mapDelete (kv :: rest) k =
      if kv.1 = k then mapDelete rest k else kv :: mapDelete rest k := rfl

theorem mapKeys_nil {β : Type} : mapKeys ([] : AList β) = [] := rfl

theorem mapKeys_cons {β : Type} (kv : String × β) (rest : AList β) :
    mapKeys (kv :: rest) = kv.1 :: mapKeys rest := rfl

theorem mapLookup_set_self {β : Type} (m : AList β) (k : String) (v : β) :
    mapLookup (mapSet m k v) k = some v := by
  induction m with
  | nil => simp [mapSet_nil, mapLookup_cons]
  | cons kv rest ih =>
    by_cases h : kv.1 = k
    · simp [mapSet_cons, mapLookup_cons, h]
    · simp [mapSet_cons, mapLookup_cons, h, ih]

theorem mapLookup_set_ne {β : Type} (m : AList β) (k k' : String) (v : β)
    (h : k' ≠ k) : mapLookup (mapSet m k v) k' = mapLookup m k' := by
  have h' : ¬ k = k' := fun hh => h hh.symm
  induction m with
  | nil => simp [mapSet_nil, mapLookup_cons, mapLookup_nil, h']
  | cons kv rest ih =>
    by_cases hk : kv.1 = k
    · rw [mapSet_cons, if_pos hk, mapLookup_cons, mapLookup_cons, if_neg h', hk,
        if_neg (hk ▸ h')]
    · rw [mapSet_cons, if_neg hk, mapLookup_cons, mapLookup_cons, ih]

theorem mapLookup_delete {β : Type} (m : AList β) (k k' : String) :
    mapLookup (mapDelete m k) k' = if k' = k then none else mapLookup m k' := by
  induction m with
  | nil => simp [mapDelete, mapLookup_nil]
  | cons kv rest ih =>
    by_cases hk : kv.1 = k
    · rw [mapDelete_cons, if_pos hk, ih, mapLookup_cons]
      by_cases he : k' = k
      · simp [he]
      · have : ¬ kv.1 = k' := hk ▸ fun hh => he hh.symm
        simp [he, this]
    · rw [mapDelete_cons, if_neg hk, mapLookup_cons, ih, mapLookup_cons]
      by_cases hk' : kv.1 = k'
      · have : ¬ k' = k := hk' ▸ fun hh => hk hh
        simp [hk', this]
      · simp [hk']

theorem mapKeys_mapSet {β : Type} (m : AList β) (k : String) (v : β) :
    mapKeys (mapSet m k v) =
      if k ∈ mapKeys m then mapKeys m else mapKeys m ++ [k] := by
  induction m with
  | nil => simp [mapSet_nil, mapKeys_cons, mapKeys_nil]
  | cons kv rest ih =>
    by_cases hk : kv.1 = k
    · rw [mapSet_cons, if_pos hk, mapKeys_cons, mapKeys_cons]
      have : k ∈ mapKeys (kv :: rest) := by
        rw [mapKeys_cons, hk]; exact List.mem_cons_self _ _
      simp [this, hk]
    · rw [mapSet_cons, if_neg hk, mapKeys_cons, mapKeys_cons, ih]
      by_cases hmem : k ∈ mapKeys rest
      · have : k ∈ kv.1 :: mapKeys rest := List.mem_cons_of_mem _ hmem
        simp [hmem, this]
      · have : k ∉ kv.1 :: mapKeys rest := by
          intro hc
          rcases List.mem_cons.1 hc with hc | hc
          · exact hk hc.symm
          · exact hmem hc
        simp [hmem, this]

theorem mapKeys_mapDelete {β : Type} (m : AList β) (k : String) :
    mapKeys (mapDelete m k) = (mapKeys m).filter (fun x => x ≠ k) := by
  induction m with
  | nil => simp [mapDelete, mapKeys_nil]
  | cons kv rest ih =>
    by_cases hk : kv.1 = k
    · rw [mapDelete_cons, if_pos hk, ih, mapKeys_cons]
      simp [List.filter_cons, hk]
    · rw [mapDelete_cons, if_neg hk, mapKeys_cons, mapKeys_cons, ih]
      simp [List.filter_cons, hk]

theorem mapKeys_set_nodup {β : Type} (m : AList β) (k : String) (v : β)
    (h : (mapKeys m).Nodup) : (mapKeys (mapSet m k v)).Nodup := by
  rw [mapKeys_mapSet]
  by_cases hmem : k ∈ mapKeys m
  · simpa [hmem] using h
  · rw [if_neg hmem, List.nodup_append]
    exact ⟨h, List.nodup_singleton _, by simpa [List.disjoint_singleton] using hmem⟩

theorem mapKeys_delete_nodup {β : Type} (m : AList β) (k : String)
    (h : (mapKeys m).Nodup) : (mapKeys (mapDelete m k)).Nodup := by
  rw [mapKeys_mapDelete]
  exact h.filter _

theorem mem_mapKeys_set {β : Type} (m : AList β) (k : String) (v : β) :
    k ∈ mapKeys (mapSet m k v) := by
  rw [mapKeys_mapSet]
  by_cases hmem : k ∈ mapKeys m
  · rw [if_pos hmem]
    exact hmem
  · simp [hmem]

theorem mapLookup_none_not_mem_keys {β : Type} (m : AList β) (k : String)
    (h : mapLookup m k = none) : k ∉ mapKeys m := by
  induction m with
  | nil => simp [mapKeys_nil]
  | cons kv rest ih =>
    rw [mapLookup_cons] at h
    by_cases hk : kv.1 = k
    · simp [hk] at h
    · rw [if_neg hk] at h
      rw [mapKeys_cons]
      intro hc
      rcases List.mem_cons.1 hc with hc | hc
      · exact hk hc.symm
      · exact ih h hc

theorem onlineUsersOf_nil : onlineUsersOf [] = [] := rfl

theorem onlineUsersOf_cons (kv : String × PStatus) (rest : AList PStatus) :
    onlineUsersOf (kv :: rest) =
      if kv.2 = PStatus.online then kv.1 :: onlineUsersOf rest
      else onlineUsersOf rest := by
  by_cases hs : kv.2 = PStatus.online <;>
    simp [onlineUsersOf, List.filter_cons, hs]

theorem mem_onlineUsersOf (pres : AList PStatus) (u : String)
    (h : mapLookup pres u = some PStatus.online) : u ∈ onlineUsersOf pres := by
  induction pres with
  | nil => simp [mapLookup_nil] at h
  | cons kv rest ih =>
    rw [mapLookup_cons] at h
    rw [onlineUsersOf_cons]
    by_cases hk : kv.1 = u
    · rw [if_pos hk] at h
      have hs : kv.2 = PStatus.online := by
        injection h
      simp [hs, hk]
    · rw [if_neg hk] at h
      by_cases hs : kv.2 = PStatus.online
      · simp [hs, ih h]
      · simp [hs, ih h]

/-! ### C1: effect of connection open -/

/-- C1 counterexample: from the empty state, opening a connection with
identity u1 leaves the presence cache without an entry for u1, leaves u1
out of the online snapshot and does not touch the liveness store, so
registration does not have the effect of a heartbeat. -/
theorem C1_connect_no_heartbeat_cex :
    mapLookup (wsConnect initState (some "u1") 0).1.presence "u1" = none ∧
    "u1" ∉ onlineUsersOf (wsConnect initState (some "u1") 0).1.presence ∧
    (wsConnect initState (some "u1") 0).1.redis = [] ∧
    (wsConnect initState (some "u1") 0).2 = [] := by decide

/-- C1 (amended): opening a connection with an identity only stores a
fresh handle in the registry; the presence cache and the liveness store
are untouched and nothing is sent, so the identity is not counted online
until its first HEARTBEAT. -/
theorem C1_connect_registers_only (st : ServerState) (u : String) (sock : Nat) :
    mapLookup (wsConnect st (some u) sock).1.clients u = some ⟨u, sock, true⟩ ∧
    (wsConnect st (some u) sock).1.presence = st.presence ∧
    (wsConnect st (some u) sock).1.redis = st.redis ∧
    (wsConnect st (some u) sock).2 = [] :=
  ⟨mapLookup_set_self st.clients u ⟨u, sock, true⟩, rfl, rfl, rfl⟩

/-! ### C3: effect of a heartbeat -/

def c3st : ServerState :=
  ⟨[("u1", ⟨"u1", 0, true⟩)], [("u1", PStatus.online)], [(livenessKey "u1", 7)], 2⟩

/-- C3 counterexample: a HEARTBEAT from identity u1 whose cached
presence is already ONLINE still emits a PRESENCE_UPDATE send, against
the claim that an already-ONLINE identity produces no PRESENCE_UPDATE. -/
theorem C3_heartbeat_cex :
    mapLookup c3st.presence "u1" = some PStatus.online ∧
    (handleMessage c3st "u1" true (InFrame.obj (some "HEARTBEAT"))).2 =
      [Output.send ⟨"u1", 0, true⟩ (OutMsg.presenceUpdate ["u1"])] := by decide

/-- C3 (amended): every HEARTBEAT from identity u refreshes the
liveness key with deadline now + 10 seconds, caches u as ONLINE, leaves
the registry unchanged and unconditionally emits the PRESENCE_UPDATE
broadcast over the registered clients, regardless of the prior cached
state. -/
theorem C3_heartbeat_always_broadcasts (st : ServerState) (u : String) :
    mapLookup (handleMessage st u true (InFrame.obj (some "HEARTBEAT"))).1.redis
      (livenessKey u) = some (st.now + 10) ∧
    mapLookup (handleMessage st u true (InFrame.obj (some "HEARTBEAT"))).1.presence u =
      some PStatus.online ∧
    (handleMessage st u true (InFrame.obj (some "HEARTBEAT"))).1.clients = st.clients ∧
    (handleMessage st u true (InFrame.obj (some "HEARTBEAT"))).2 =
      broadcastPresence st.clients (mapSet st.presence u PStatus.online) := by
  have hred : handleMessage st u true (InFrame.obj (some "HEARTBEAT")) =
      ({ st with redis := mapSet st.redis (livenessKey u) (st.now + 10),
                 presence := mapSet st.presence u PStatus.online },
       broadcastPresence st.clients (mapSet st.presence u PStatus.online)) := by
    simp [handleMessage]
  rw [hred]
  exact ⟨mapLookup_set_self _ _ _, mapLookup_set_self _ _ _, rfl, rfl⟩

/-! ### C5: connections without an identity -/

/-- C5 counterexample: a connection opened without a userId is closed
at once with code 4000 instead of waiting in AWAITING_IDENTITY, and a
REGISTER frame on a live connection is ignored entirely (no registry or
presence effect), so the claimed REGISTER transition does not exist. -/
theorem C5_register_cex :
    wsConnect initState none 7 =
      (initState, [Output.closeConn 4000 "Missing userId"]) ∧
    handleMessage ⟨[("u1", ⟨"u1", 0, true⟩)], [], [], 0⟩ "u1" true
        (InFrame.obj (some "REGISTER")) =
      (⟨[("u1", ⟨"u1", 0, true⟩)], [], [], 0⟩, []) := by decide

/-- C5 (amended): a connection opened without a userId is immediately
closed with code 4000 and nothing is registered; REGISTER frames are
not a handled frame type and leave the state unchanged with no output
(only HEARTBEAT acts). -/
theorem C5_missing_id_closes (st : ServerState) (sock : Nat) (u : String) :
    wsConnect st none sock = (st, [Output.closeConn 4000 "Missing userId"]) ∧
    handleMessage st u true (InFrame.obj (some "REGISTER")) = (st, []) := by
  refine ⟨rfl, ?_⟩
  simp [handleMessage]

/-! ### C8: malformed and unknown frames -/

/-- C8: on an ACTIVE connection, malformed JSON and JSON frames whose
type discriminator is not HEARTBEAT (including a missing type) are
discarded: the whole state — registry entry, presence entry, liveness
store — is returned unchanged and no output is produced, in particular
the connection is not closed. -/
theorem C8_bad_frames_ignored (st : ServerState) (u : String) (t : Option String)
    (h : t ≠ some "HEARTBEAT") :
    handleMessage st u true InFrame.malformed = (st, []) ∧
    handleMessage st u true (InFrame.obj t) = (st, []) := by
  refine ⟨rfl, ?_⟩
  simp only [handleMessage, if_neg h]

def c8st : ServerState :=
  ⟨[("u2", ⟨"u2", 3, true⟩)], [("u2", PStatus.online)], [(livenessKey "u2", 9)], 1⟩

/-- C8 witness: the unknown frame type PING and malformed data leave a
concrete active state exactly unchanged. -/
theorem C8_bad_frames_witness :
    (some "PING" ≠ some "HEARTBEAT") ∧
    handleMessage c8st "u2" true InFrame.malformed = (c8st, []) ∧
    handleMessage c8st "u2" true (InFrame.obj (some "PING")) = (c8st, []) :=
  ⟨by decide,
    (C8_bad_frames_ignored c8st "u2" (some "PING") (by decide)).1,
    (C8_bad_frames_ignored c8st "u2" (some "PING") (by decide)).2⟩

/-! ### C9: liveness store unreachable -/

def c9st : ServerState := ⟨[("u1", ⟨"u1", 0, true⟩)], [("u1", PStatus.online)], [], 0⟩

/-- C9: with the liveness store down, a HEARTBEAT aborts at the awaited
store write — no presence or registry mutation, no frame sent — but the
rejection escapes the handler uncaught rather than being absorbed; a
sweep over a nonempty registry likewise aborts at its first existence
check with an uncaught rejection and no state change. -/
theorem C9_store_failure_escapes (st : ServerState) (u : String) :
    handleMessage st u false (InFrame.obj (some "HEARTBEAT")) =
      (st, [Output.uncaughtRejection]) ∧
    sweep c9st false = (c9st, [Output.uncaughtRejection]) := by
  refine ⟨?_, by decide⟩
  simp [handleMessage]

/-! ### C2: NEW_MESSAGE fanout -/

/-- Number of occurrences of an identity in a list. -/
def countOcc (l : List String) (p : String) : Nat :=
  match l with
  | [] => 0
  | x :: rest => (if x = p then 1 else 0) + countOcc rest p

/-- Identities of the clients that the given outputs write to. -/
def sendTargets (outs : List Output) : List String :=
  outs.filterMap (fun o => match o with
    | Output.send c _ => some c.userId
    | _ => none)

/-- Number of sends the fanout produces for one target: one when a
handle is registered and its socket is open, zero otherwise. -/
def deliverInd (cls : AList Client) (p : String) : Nat :=
  match mapLookup cls p with
  | some c => if c.isOpen then 1 else 0
  | none => 0

theorem countOcc_eq_zero_of_not_mem (l : List String) (p : String)
    (h : p ∉ l) : countOcc l p = 0 := by
  induction l with
  | nil => rfl
  | cons x rest ih =>
    have hx : ¬ x = p := fun hh => h (hh ▸ List.mem_cons_self _ _)
    have hrest : p ∉ rest := fun hh => h (List.mem_cons_of_mem _ hh)
    simp [countOcc, hx, ih hrest]

theorem countOcc_eq_one_of_nodup (l : List String) (p : String)
    (hnd : l.Nodup) (hmem : p ∈ l) : countOcc l p = 1 := by
  induction l with
  | nil => simp at hmem
  | cons x rest ih =>
    rw [List.nodup_cons] at hnd
    by_cases hx : x = p
    · subst hx
      simp [countOcc, countOcc_eq_zero_of_not_mem rest x hnd.1]
    · rcases List.mem_cons.1 hmem with hc | hc
      · exact absurd hc.symm hx
      · simp [countOcc, hx, ih hnd.2 hc]

theorem mapLookup_mem {β : Type} (m : AList β) (k : String) (v : β)
    (h : mapLookup m k = some v) : (k, v) ∈ m := by
  induction m with
  | nil => simp [mapLookup_nil] at h
  | cons kv rest ih =>
    rw [mapLookup_cons] at h
    by_cases hk : kv.1 = k
    · rw [if_pos hk] at h
      injection h with h
      refine List.mem_cons.2 (Or.inl ?_)
      cases kv
      cases hk
      cases h
      rfl
    · rw [if_neg hk] at h
      exact List.mem_cons_of_mem _ (ih h)

theorem sendTargets_fanout_count (cls : AList Client) (pl : MsgPayload) (p : String)
    (hwf : ∀ kv ∈ cls, Client.userId kv.2 = kv.1) (ps : List String) :
    countOcc (sendTargets (fanoutNewMessage cls ps pl)) p =
      countOcc ps p * deliverInd cls p := by
  induction ps with
  | nil => simp [fanoutNewMessage, sendTargets, countOcc]
  | cons q rest ih =>
    have hfan : fanoutNewMessage cls (q :: rest) pl =
        ((mapLookup cls q).bind (fun c => c.send (OutMsg.newMessage pl))).toList ++
          fanoutNewMessage cls rest pl := by
      simp [fanoutNewMessage, List.filterMap_cons]
      rcases mapLookup cls q with _ | c
      · simp
      · rcases h : c.send (OutMsg.newMessage pl) with _ | o <;> simp [h]
    rcases hq : mapLookup cls q with _ | c
    · rw [hfan, hq]
      simp only [Option.bind, Option.toList, List.nil_append]
      by_cases hqp : q = p
      · subst hqp
        have : deliverInd cls q = 0 := by simp [deliverInd, hq]
        simp [countOcc, this, ih]
      · simp [countOcc, hqp, ih]
    · have huid : c.userId = q := hwf (q, c) (mapLookup_mem cls q c hq)
      by_cases hopen : c.isOpen
      · have hsend : c.send (OutMsg.newMessage pl) =
            some (Output.send c (OutMsg.newMessage pl)) := by
          simp [Client.send, hopen]
        rw [hfan, hq]
        simp only [Option.bind, hsend, Option.toList, List.singleton_append]
        have hst : sendTargets (Output.send c (OutMsg.newMessage pl) ::
            fanoutNewMessage cls rest pl) =
            c.userId :: sendTargets (fanoutNewMessage cls rest pl) := by
          simp [sendTargets, List.filterMap_cons]
        rw [hst, huid]
        by_cases hqp : q = p
        · subst hqp
          have : deliverInd cls q = 1 := by simp [deliverInd, hq, hopen]
          simp [countOcc, this, ih, Nat.add_mul]
        · simp [countOcc, hqp, ih]
      · have hsend : c.send (OutMsg.newMessage pl) = none := by
          simp [Client.send, hopen]
        rw [hfan, hq]
        simp only [Option.bind, hsend, Option.toList, List.nil_append]
        by_cases hqp : q = p
        · subst hqp
          have : deliverInd cls q = 0 := by simp [deliverInd, hq, hopen]
          simp [countOcc, this, ih]
        · simp [countOcc, hqp, ih]

/-- C2: over a duplicate-free participant set, each participant with a
registered open handle receives exactly one NEW_MESSAGE send, each
unregistered participant receives none, and the fanout over a
concatenation is the concatenation of the fanouts — each send is
attempted independently, so a failing or dropped send for one participant
never prevents the sends to the remaining participants. -/
theorem C2_fanout_delivery (cls : AList Client) (ps qs : List String) (pl : MsgPayload)
    (hnd : ps.Nodup) (hwf : ∀ kv ∈ cls, Client.userId kv.2 = kv.1) :
    (∀ p ∈ ps, ∀ c, mapLookup cls p = some c → c.isOpen = true →
      countOcc (sendTargets (fanoutNewMessage cls ps pl)) p = 1) ∧
    (∀ p, mapLookup cls p = none →
      countOcc (sendTargets (fanoutNewMessage cls ps pl)) p = 0) ∧
    fanoutNewMessage cls (ps ++ qs) pl =
      fanoutNewMessage cls ps pl ++ fanoutNewMessage cls qs pl := by
  refine ⟨?_, ?_, ?_⟩
  · intro p hmem c hlk hopen
    rw [sendTargets_fanout_count cls pl p hwf ps,
      countOcc_eq_one_of_nodup ps p hnd hmem]
    simp [deliverInd, hlk, hopen]
  · intro p hlk
    rw [sendTargets_fanout_count cls pl p hwf ps]
    simp [deliverInd, hlk]
  · simp [fanoutNewMessage, List.filterMap_append]

def c2cls : AList Client := [("A", ⟨"A", 0, false⟩), ("C", ⟨"C", 2, true⟩)]

def c2pl : MsgPayload := ⟨"c1", "m1", "A", "hi", "t1"⟩

/-- C2 witness: participants A, B, C where A is registered with a
non-open socket (its send fails by dropping), B unregistered, C
registered and open: C still receives exactly one send and B none. -/
theorem C2_fanout_witness :
    ((["A", "B", "C"] : List String).Nodup ∧
      (∀ kv ∈ c2cls, Client.userId kv.2 = kv.1) ∧
      mapLookup c2cls "C" = some ⟨"C", 2, true⟩) ∧
    countOcc (sendTargets (fanoutNewMessage c2cls ["A", "B", "C"] c2pl)) "C" = 1 ∧
    countOcc (sendTargets (fanoutNewMessage c2cls ["A", "B", "C"] c2pl)) "B" = 0 :=
  ⟨⟨by decide, by decide, by decide⟩,
    (C2_fanout_delivery c2cls ["A", "B", "C"] [] c2pl (by decide) (by decide)).1
      "C" (by decide) ⟨"C", 2, true⟩ (by decide) rfl,
    (C2_fanout_delivery c2cls ["A", "B", "C"] [] c2pl (by decide) (by decide)).2.1
      "B" (by decide)⟩

/-! ### C6: registry holds at most one handle per identity -/

/-- C6: on a registry whose keys are duplicate-free, set and delete
preserve that invariant; registering identity u twice leaves exactly
one entry for u, holding the second handle, and a NEW_MESSAGE fanout to
u afterwards sends through the second handle only. -/
theorem C6_registry_latest_wins (reg : AList Client) (u : String) (c1 c2 : Client)
    (pl : MsgPayload) (hnd : (mapKeys reg).Nodup) :
    (mapKeys (mapSet reg u c1)).Nodup ∧
    (mapKeys (mapDelete reg u)).Nodup ∧
    countOcc (mapKeys (mapSet (mapSet reg u c1) u c2)) u = 1 ∧
    mapLookup (mapSet (mapSet reg u c1) u c2) u = some c2 ∧
    (c2.isOpen = true →
      fanoutNewMessage (mapSet (mapSet reg u c1) u c2) [u] pl =
        [Output.send c2 (OutMsg.newMessage pl)]) := by
  refine ⟨mapKeys_set_nodup reg u c1 hnd, mapKeys_delete_nodup reg u hnd, ?_, ?_, ?_⟩
  · exact countOcc_eq_one_of_nodup _ u
      (mapKeys_set_nodup _ u c2 (mapKeys_set_nodup reg u c1 hnd))
      (mem_mapKeys_set _ u c2)
  · exact mapLookup_set_self _ u c2
  · intro hopen
    simp [fanoutNewMessage, List.filterMap_cons, mapLookup_set_self,
      Client.send, hopen]

def c6reg : AList Client := [("u9", ⟨"u9", 9, true⟩)]

/-- C6 witness: registering u1 twice over a concrete registry leaves one
entry holding the latest handle, and delivery goes to it alone. -/
theorem C6_registry_witness :
    ((mapKeys c6reg).Nodup ∧ (⟨"u1", 5, true⟩ : Client).isOpen = true) ∧
    countOcc (mapKeys (mapSet (mapSet c6reg "u1" ⟨"u1", 4, true⟩) "u1"
      ⟨"u1", 5, true⟩)) "u1" = 1 ∧
    mapLookup (mapSet (mapSet c6reg "u1" ⟨"u1", 4, true⟩) "u1" ⟨"u1", 5, true⟩)
      "u1" = some ⟨"u1", 5, true⟩ ∧
    fanoutNewMessage (mapSet (mapSet c6reg "u1" ⟨"u1", 4, true⟩) "u1"
      ⟨"u1", 5, true⟩) ["u1"] c2pl = [Output.send ⟨"u1", 5, true⟩
      (OutMsg.newMessage c2pl)] :=
  ⟨⟨by decide, rfl⟩,
    (C6_registry_latest_wins c6reg "u1" ⟨"u1", 4, true⟩ ⟨"u1", 5, true⟩ c2pl
      (by decide)).2.2.1,
    (C6_registry_latest_wins c6reg "u1" ⟨"u1", 4, true⟩ ⟨"u1", 5, true⟩ c2pl
      (by decide)).2.2.2.1,
    (C6_registry_latest_wins c6reg "u1" ⟨"u1", 4, true⟩ ⟨"u1", 5, true⟩ c2pl
      (by decide)).2.2.2.2 rfl⟩

/-! ### Sweep lemmas -/

theorem sweepGo_nil (r : Bool) (redis : AList Nat) (now : Nat) (cls : AList Client)
    (pres : AList PStatus) : sweepGo r redis now cls [] pres = (pres, []) := rfl

theorem sweepGo_cons_false (redis : AList Nat) (now : Nat) (cls : AList Client)
    (u : String) (rest : List String) (pres : AList PStatus) :
    sweepGo false redis now cls (u :: rest) pres =
      (pres, [Output.uncaughtRejection]) := rfl

theorem sweepGo_cons_exists (redis : AList Nat) (now : Nat) (cls : AList Client)
    (u : String) (rest : List String) (pres : AList PStatus)
    (h : redisExists redis now (livenessKey u) = true) :
    sweepGo true redis now cls (u :: rest) pres =
      sweepGo true redis now cls rest pres := by
  simp [sweepGo, h]

theorem sweepGo_cons_offline (redis : AList Nat) (now : Nat) (cls : AList Client)
    (u : String) (rest : List String) (pres : AList PStatus)
    (h : redisExists redis now (livenessKey u) = false)
    (h2 : mapLookup pres u = some PStatus.offline) :
    sweepGo true redis now cls (u :: rest) pres =
      sweepGo true redis now cls rest pres := by
  simp [sweepGo, h, h2]

theorem sweepGo_cons_flip (redis : AList Nat) (now : Nat) (cls : AList Client)
    (u : String) (rest : List String) (pres : AList PStatus)
    (h : redisExists redis now (livenessKey u) = false)
    (h2 : ¬ mapLookup pres u = some PStatus.offline) :
    sweepGo true redis now cls (u :: rest) pres =
      ((sweepGo true redis now cls rest (mapSet pres u PStatus.offline)).1,
        broadcastPresence cls (mapSet pres u PStatus.offline) ++
          (sweepGo true redis now cls rest (mapSet pres u PStatus.offline)).2) := by
  simp [sweepGo, h, h2]

theorem sweepGo_false_presence (redis : AList Nat) (now : Nat) (cls : AList Client)
    (ks : List String) (pres : AList PStatus) :
    (sweepGo false redis now cls ks pres).1 = pres := by
  cases ks <;> rfl

theorem sweepGo_lookup_not_mem (redis : AList Nat) (now : Nat) (cls : AList Client)
    (u : String) (ks : List String) :
    ∀ pres : AList PStatus, u ∉ ks →
      mapLookup (sweepGo true redis now cls ks pres).1 u = mapLookup pres u := by
  induction ks with
  | nil => intro pres _; rfl
  | cons k rest ih =>
    intro pres hmem
    have hk : u ≠ k := fun hh => hmem (hh ▸ List.mem_cons_self _ _)
    have hrest : u ∉ rest := fun hh => hmem (List.mem_cons_of_mem _ hh)
    by_cases hex : redisExists redis now (livenessKey k) = true
    · rw [sweepGo_cons_exists redis now cls k rest pres hex]
      exact ih pres hrest
    · have hex' : redisExists redis now (livenessKey k) = false :=
        Bool.eq_false_iff.2 hex
      by_cases hoff : mapLookup pres k = some PStatus.offline
      · rw [sweepGo_cons_offline redis now cls k rest pres hex' hoff]
        exact ih pres hrest
      · rw [sweepGo_cons_flip redis now cls k rest pres hex' hoff]
        rw [ih (mapSet pres k PStatus.offline) hrest]
        exact mapLookup_set_ne pres k u PStatus.offline hk

theorem sweepGo_lookup_cases (redis : AList Nat) (now : Nat) (cls : AList Client)
    (v : String) (ks : List String) :
    ∀ pres : AList PStatus,
      mapLookup (sweepGo true redis now cls ks pres).1 v = mapLookup pres v ∨
      mapLookup (sweepGo true redis now cls ks pres).1 v = some PStatus.offline := by
  induction ks with
  | nil => intro pres; exact Or.inl rfl
  | cons k rest ih =>
    intro pres
    by_cases hex : redisExists redis now (livenessKey k) = true
    · rw [sweepGo_cons_exists redis now cls k rest pres hex]
      exact ih pres
    · have hex' : redisExists redis now (livenessKey k) = false :=
        Bool.eq_false_iff.2 hex
      by_cases hoff : mapLookup pres k = some PStatus.offline
      · rw [sweepGo_cons_offline redis now cls k rest pres hex' hoff]
        exact ih pres
      · rw [sweepGo_cons_flip redis now cls k rest pres hex' hoff]
        by_cases hv : v = k
        · subst hv
          rcases ih (mapSet pres v PStatus.offline) with h1 | h1
          · exact Or.inr (h1.trans (mapLookup_set_self pres v PStatus.offline))
          · exact Or.inr h1
        · rcases ih (mapSet pres k PStatus.offline) with h1 | h1
          · exact Or.inl
              (h1.trans (mapLookup_set_ne pres k v PStatus.offline hv))
          · exact Or.inr h1

theorem sweepGo_flips_expired (redis : AList Nat) (now : Nat) (cls : AList Client)
    (u : String) (hex : redisExists redis now (livenessKey u) = false)
    (ks : List String) :
    ∀ pres : AList PStatus, u ∈ ks →
      mapLookup (sweepGo true redis now cls ks pres).1 u = some PStatus.offline := by
  induction ks with
  | nil => intro pres hmem; simp at hmem
  | cons k rest ih =>
    intro pres hmem
    by_cases hk : u = k
    · subst hk
      by_cases hoff : mapLookup pres u = some PStatus.offline
      · rw [sweepGo_cons_offline redis now cls u rest pres hex hoff]
        rcases sweepGo_lookup_cases redis now cls u rest pres with h1 | h1
        · exact h1.trans hoff
        · exact h1
      · rw [sweepGo_cons_flip redis now cls u rest pres hex hoff]
        rcases sweepGo_lookup_cases redis now cls u rest
            (mapSet pres u PStatus.offline) with h1 | h1
        · exact h1.trans (mapLookup_set_self pres u PStatus.offline)
        · exact h1
    · have hrest : u ∈ rest := by
        rcases List.mem_cons.1 hmem with hc | hc
        · exact absurd hc hk
        · exact hc
      by_cases hexk : redisExists redis now (livenessKey k) = true
      · rw [sweepGo_cons_exists redis now cls k rest pres hexk]
        exact ih pres hrest
      · have hexk' : redisExists redis now (livenessKey k) = false :=
          Bool.eq_false_iff.2 hexk
        by_cases hoff : mapLookup pres k = some PStatus.offline
        · rw [sweepGo_cons_offline redis now cls k rest pres hexk' hoff]
          exact ih pres hrest
        · rw [sweepGo_cons_flip redis now cls k rest pres hexk' hoff]
          exact ih (mapSet pres k PStatus.offline) hrest

theorem send_mem_broadcastPresence (cls : AList Client) (pres : AList PStatus)
    (kc : String × Client) (h : kc ∈ cls) (hop : kc.2.isOpen = true) :
    Output.send kc.2 (OutMsg.presenceUpdate (onlineUsersOf pres)) ∈
      broadcastPresence cls pres := by
  refine List.mem_filterMap.2 ⟨kc, h, ?_⟩
  simp [Client.send, hop]

theorem sweepGo_flip_broadcasts (redis : AList Nat) (now : Nat) (cls : AList Client)
    (u : String) (hex : redisExists redis now (livenessKey u) = false)
    (ks : List String) :
    ∀ pres : AList PStatus, u ∈ ks →
      mapLookup pres u ≠ some PStatus.offline →
      ∀ kc ∈ cls, kc.2.isOpen = true →
        ∃ l, Output.send kc.2 (OutMsg.presenceUpdate l) ∈
          (sweepGo true redis now cls ks pres).2 := by
  induction ks with
  | nil =>
    intro pres hmem
    simp at hmem
  | cons k rest ih =>
    intro pres hmem hoff kc hkc hop
    by_cases hk : u = k
    · subst hk
      rw [sweepGo_cons_flip redis now cls u rest pres hex hoff]
      refine ⟨onlineUsersOf (mapSet pres u PStatus.offline), ?_⟩
      exact List.mem_append_left _
        (send_mem_broadcastPresence cls (mapSet pres u PStatus.offline) kc hkc hop)
    · have hrest : u ∈ rest := by
        rcases List.mem_cons.1 hmem with hc | hc
        · exact absurd hc hk
        · exact hc
      by_cases hexk : redisExists redis now (livenessKey k) = true
      · rw [sweepGo_cons_exists redis now cls k rest pres hexk]
        exact ih pres hrest hoff kc hkc hop
      · have hexk' : redisExists redis now (livenessKey k) = false :=
          Bool.eq_false_iff.2 hexk
        by_cases hoffk : mapLookup pres k = some PStatus.offline
        · rw [sweepGo_cons_offline redis now cls k rest pres hexk' hoffk]
          exact ih pres hrest hoff kc hkc hop
        · rw [sweepGo_cons_flip redis now cls k rest pres hexk' hoffk]
          have hoff1 : mapLookup (mapSet pres k PStatus.offline) u ≠
              some PStatus.offline := by
            rw [mapLookup_set_ne pres k u PStatus.offline hk]
            exact hoff
          rcases ih (mapSet pres k PStatus.offline) hrest hoff1 kc hkc hop with
            ⟨l, hl⟩
          exact ⟨l, List.mem_append_right _ hl⟩

/-! ### C4: what the sweep examines -/

def c4st : ServerState := ⟨[], [("u1", PStatus.online)], [], 0⟩

/-- C4 counterexample: identity u1 is tracked ONLINE by the presence
cache but has no registered connection and no liveness key; the sweep
leaves it ONLINE and emits nothing, against the claim that every
tracked identity is checked against the store and flipped OFFLINE. -/
theorem C4_sweep_cex :
    mapLookup c4st.presence "u1" = some PStatus.online ∧
    redisExists c4st.redis c4st.now (livenessKey "u1") = false ∧
    sweep c4st true = (c4st, []) := by decide

/-- C4 (amended): the sweep queries the liveness store only for
identities with a currently registered connection: an identity absent
from the registry keeps its cached presence entry unchanged even when
its liveness key is absent, while a registered identity whose liveness
key is absent is cached OFFLINE, and when its cached state was not
already OFFLINE this flip also broadcasts a PRESENCE_UPDATE — every
registered client with an open socket receives a PRESENCE_UPDATE send
among the sweep outputs; registry, liveness store and clock are not
modified. -/
theorem C4_sweep_registered_only (st : ServerState) (u : String) :
    (mapLookup st.clients u = none →
      mapLookup (sweep st true).1.presence u = mapLookup st.presence u) ∧
    (u ∈ mapKeys st.clients →
      redisExists st.redis st.now (livenessKey u) = false →
      mapLookup (sweep st true).1.presence u = some PStatus.offline) ∧
    (u ∈ mapKeys st.clients →
      redisExists st.redis st.now (livenessKey u) = false →
      mapLookup st.presence u ≠ some PStatus.offline →
      ∀ kc ∈ st.clients, kc.2.isOpen = true →
        ∃ l, Output.send kc.2 (OutMsg.presenceUpdate l) ∈ (sweep st true).2) ∧
    (sweep st true).1.clients = st.clients ∧
    (sweep st true).1.redis = st.redis := by
  refine ⟨?_, ?_, ?_, rfl, rfl⟩
  · intro h
    exact sweepGo_lookup_not_mem st.redis st.now st.clients u
      (mapKeys st.clients) st.presence
      (mapLookup_none_not_mem_keys st.clients u h)
  · intro hmem hex
    exact sweepGo_flips_expired st.redis st.now st.clients u hex
      (mapKeys st.clients) st.presence hmem
  · intro hmem hex hoff kc hkc hop
    exact sweepGo_flip_broadcasts st.redis st.now st.clients u hex
      (mapKeys st.clients) st.presence hmem hoff kc hkc hop

def c4wst : ServerState :=
  ⟨[("u1", ⟨"u1", 0, true⟩)], [("u1", PStatus.online), ("u2", PStatus.online)], [], 3⟩

/-- C4 witness: with u1 registered, open and expired while ONLINE, and
u2 tracked only by the presence cache, the sweep flips u1 OFFLINE,
sends u1 a PRESENCE_UPDATE, and never touches u2. -/
theorem C4_sweep_witness :
    (mapLookup c4wst.clients "u2" = none ∧ "u1" ∈ mapKeys c4wst.clients ∧
      redisExists c4wst.redis c4wst.now (livenessKey "u1") = false ∧
      mapLookup c4wst.presence "u1" ≠ some PStatus.offline ∧
      ("u1", (⟨"u1", 0, true⟩ : Client)) ∈ c4wst.clients) ∧
    mapLookup (sweep c4wst true).1.presence "u2" = mapLookup c4wst.presence "u2" ∧
    mapLookup (sweep c4wst true).1.presence "u1" = some PStatus.offline ∧
    (∃ l, Output.send ⟨"u1", 0, true⟩ (OutMsg.presenceUpdate l) ∈
      (sweep c4wst true).2) :=
  ⟨⟨by decide, by decide, by decide, by decide, by decide⟩,
    (C4_sweep_registered_only c4wst "u2").1 (by decide),
    (C4_sweep_registered_only c4wst "u1").2.1 (by decide) (by decide),
    (C4_sweep_registered_only c4wst "u1").2.2.1 (by decide) (by decide) (by decide)
      ("u1", ⟨"u1", 0, true⟩) (by decide) rfl⟩

/-! ### Reduction lemmas for the message handler -/

theorem handleMessage_malformed (st : ServerState) (u : String) (r : Bool) :
    handleMessage st u r InFrame.malformed = (st, []) := rfl

theorem handleMessage_hb_up (st : ServerState) (u : String) :
    handleMessage st u true (InFrame.obj (some "HEARTBEAT")) =
      ({ st with redis := mapSet st.redis (livenessKey u) (st.now + 10),
                 presence := mapSet st.presence u PStatus.online },
        broadcastPresence st.clients (mapSet st.presence u PStatus.online)) := by
  simp [handleMessage]

theorem handleMessage_hb_down (st : ServerState) (u : String) :
    handleMessage st u false (InFrame.obj (some "HEARTBEAT")) =
      (st, [Output.uncaughtRejection]) := by
  simp [handleMessage]

theorem handleMessage_not_hb (st : ServerState) (u : String) (r : Bool)
    (t : Option String) (h : t ≠ some "HEARTBEAT") :
    handleMessage st u r (InFrame.obj t) = (st, []) := by
  simp only [handleMessage, if_neg h]

/-- No event of the subsystem ever removes a presence-cache entry. -/
theorem stepFn_presence_kept (st : ServerState) (ev : Ev) (v : String) (s : PStatus)
    (h : mapLookup st.presence v = some s) :
    ∃ s2, mapLookup (stepFn st ev).1.presence v = some s2 := by
  cases ev with
  | connect u sock => exact ⟨s, h⟩
  | connectNoId sock => exact ⟨s, h⟩
  | frame u r f =>
    cases f with
    | malformed => exact ⟨s, h⟩
    | obj t =>
      by_cases ht : t = some "HEARTBEAT"
      · subst ht
        cases r with
        | false =>
          refine ⟨s, ?_⟩
          show mapLookup (handleMessage st u false
            (InFrame.obj (some "HEARTBEAT"))).1.presence v = some s
          rw [handleMessage_hb_down]
          exact h
        | true =>
          show ∃ s2, mapLookup (handleMessage st u true
            (InFrame.obj (some "HEARTBEAT"))).1.presence v = some s2
          rw [handleMessage_hb_up]
          by_cases hv : v = u
          · subst hv
            exact ⟨PStatus.online, mapLookup_set_self st.presence v PStatus.online⟩
          · refine ⟨s, ?_⟩
            rw [mapLookup_set_ne st.presence u v PStatus.online hv]
            exact h
      · refine ⟨s, ?_⟩
        show mapLookup (handleMessage st u r (InFrame.obj t)).1.presence v = some s
        rw [handleMessage_not_hb st u r t ht]
        exact h
  | close u => exact ⟨s, h⟩
  | sweepEv r =>
    cases r with
    | false =>
      refine ⟨s, ?_⟩
      show mapLookup (sweep st false).1.presence v = some s
      have : (sweep st false).1.presence =
          (sweepGo false st.redis st.now st.clients (mapKeys st.clients)
            st.presence).1 := rfl
      rw [this, sweepGo_false_presence]
      exact h
    | true =>
      rcases sweepGo_lookup_cases st.redis st.now st.clients v
          (mapKeys st.clients) st.presence with h1 | h1
      · exact ⟨s, h1.trans h⟩
      · exact ⟨PStatus.offline, h1⟩
  | message ps pl => exact ⟨s, h⟩
  | tick n => exact ⟨s, h⟩

/-! ### C7: effect of connection close -/

/-- C7: closing the connection of identity u removes only the registry
entry: the presence cache and the liveness store are exactly unchanged
and nothing is sent; moreover no event of the subsystem ever deletes a
presence-cache entry — an identity with a cached status still has one
after any step, so OFFLINE demotion can only come from the sweep. -/
theorem C7_close_only_unregisters (st : ServerState) (u : String) :
    (wsClose st u).1.presence = st.presence ∧
    (wsClose st u).1.redis = st.redis ∧
    mapLookup (wsClose st u).1.clients u = none ∧
    (wsClose st u).2 = [] ∧
    (∀ ev v s, mapLookup st.presence v = some s →
      ∃ s2, mapLookup (stepFn st ev).1.presence v = some s2) := by
  refine ⟨rfl, rfl, ?_, rfl, ?_⟩
  · show mapLookup (mapDelete st.clients u) u = none
    rw [mapLookup_delete]
    simp
  · intro ev v s h
    exact stepFn_presence_kept st ev v s h

def c7st : ServerState := ⟨[("u1", ⟨"u1", 0, true⟩)], [("u1", PStatus.online)], [], 0⟩

/-- C7 witness: closing the concrete connection of u1 unregisters it while
its ONLINE presence entry survives the close step. -/
theorem C7_close_witness :
    mapLookup c7st.presence "u1" = some PStatus.online ∧
    (wsClose c7st "u1").1.presence = c7st.presence ∧
    mapLookup (wsClose c7st "u1").1.clients "u1" = none ∧
    (∃ s2, mapLookup (stepFn c7st (Ev.close "u1")).1.presence "u1" = some s2) :=
  ⟨by decide,
    (C7_close_only_unregisters c7st "u1").1,
    (C7_close_only_unregisters c7st "u1").2.2.1,
    (C7_close_only_unregisters c7st "u1").2.2.2.2 (Ev.close "u1") "u1"
      PStatus.online (by decide)⟩

/-! ### Output shape lemmas -/

theorem broadcastPresence_outputs (cls : AList Client) (pres : AList PStatus)
    (o : Output) (h : o ∈ broadcastPresence cls pres) :
    ∃ c, o = Output.send c (OutMsg.presenceUpdate (onlineUsersOf pres)) := by
  rcases List.mem_filterMap.1 h with ⟨kc, _, hf⟩
  refine ⟨kc.2, ?_⟩
  simp only [Client.send] at hf
  by_cases hop : kc.2.isOpen
  · rw [if_pos hop] at hf
    injection hf with hf
    exact hf.symm
  · rw [if_neg hop] at hf
    cases hf

theorem fanout_outputs_newMessage (cls : AList Client) (ps : List String)
    (pl : MsgPayload) (o : Output) (h : o ∈ fanoutNewMessage cls ps pl) :
    ∃ c, o = Output.send c (OutMsg.newMessage pl) := by
  rcases List.mem_filterMap.1 h with ⟨p, _, hf⟩
  rcases hlk : mapLookup cls p with _ | c
  · rw [hlk] at hf
    cases hf
  · rw [hlk] at hf
    have hf2 : c.send (OutMsg.newMessage pl) = some o := hf
    refine ⟨c, ?_⟩
    simp only [Client.send] at hf2
    by_cases hop : c.isOpen
    · rw [if_pos hop] at hf2
      injection hf2 with hf2
      exact hf2.symm
    · rw [if_neg hop] at hf2
      cases hf2

theorem sweepGo_false_outputs (redis : AList Nat) (now : Nat) (cls : AList Client)
    (ks : List String) (pres : AList PStatus) :
    ∀ o ∈ (sweepGo false redis now cls ks pres).2, o = Output.uncaughtRejection := by
  cases ks with
  | nil =>
    intro o h
    simp [sweepGo_nil] at h
  | cons k rest =>
    intro o h
    rw [sweepGo_cons_false] at h
    simpa using h

theorem sweepGo_outputs_online (redis : AList Nat) (now : Nat) (cls : AList Client)
    (u : String) (ks : List String) :
    ∀ pres : AList PStatus, mapLookup pres u = some PStatus.online → u ∉ ks →
      ∀ o ∈ (sweepGo true redis now cls ks pres).2, ∀ c l,
        o = Output.send c (OutMsg.presenceUpdate l) → u ∈ l := by
  induction ks with
  | nil =>
    intro pres _ _ o ho
    simp [sweepGo_nil] at ho
  | cons k rest ih =>
    intro pres hon hmem o ho c l heq
    have hk : u ≠ k := fun hh => hmem (hh ▸ List.mem_cons_self _ _)
    have hrest : u ∉ rest := fun hh => hmem (List.mem_cons_of_mem _ hh)
    by_cases hex : redisExists redis now (livenessKey k) = true
    · rw [sweepGo_cons_exists redis now cls k rest pres hex] at ho
      exact ih pres hon hrest o ho c l heq
    · have hex' : redisExists redis now (livenessKey k) = false :=
        Bool.eq_false_iff.2 hex
      by_cases hoff : mapLookup pres k = some PStatus.offline
      · rw [sweepGo_cons_offline redis now cls k rest pres hex' hoff] at ho
        exact ih pres hon hrest o ho c l heq
      · rw [sweepGo_cons_flip redis now cls k rest pres hex' hoff] at ho
        have hon1 : mapLookup (mapSet pres k PStatus.offline) u =
            some PStatus.online := by
          rw [mapLookup_set_ne pres k u PStatus.offline hk]
          exact hon
        rcases List.mem_append.1 ho with hx | hx
        · rcases broadcastPresence_outputs cls (mapSet pres k PStatus.offline)
            o hx with ⟨c2, hc2⟩
          have hsend : Output.send c (OutMsg.presenceUpdate l) =
              Output.send c2 (OutMsg.presenceUpdate
                (onlineUsersOf (mapSet pres k PStatus.offline))) :=
            heq.symm.trans hc2
          injection hsend with hc hl
          injection hl with hl
          rw [hl]
          exact mem_onlineUsersOf (mapSet pres k PStatus.offline) u hon1
        · exact ih (mapSet pres k PStatus.offline) hon1 hrest o hx c l heq

/-! ### C10: a disconnected ONLINE identity is never demoted -/

/-- Identity u is cached ONLINE while having no registry entry. -/
def ghostOnline (st : ServerState) (u : String) : Prop :=
  mapLookup st.presence u = some PStatus.online ∧ mapLookup st.clients u = none

theorem ghostOnline_step (st : ServerState) (u : String) (ev : Ev)
    (h : ghostOnline st u) (hev : isConnectOf u ev = false) :
    ghostOnline (stepFn st ev).1 u := by
  obtain ⟨hon, hcl⟩ := h
  cases ev with
  | connect v sock =>
    have hv : ¬ v = u := by simpa [isConnectOf] using hev
    refine ⟨hon, ?_⟩
    show mapLookup (mapSet st.clients v ⟨v, sock, true⟩) u = none
    rw [mapLookup_set_ne st.clients v u ⟨v, sock, true⟩ (fun hh => hv hh.symm)]
    exact hcl
  | connectNoId sock => exact ⟨hon, hcl⟩
  | frame v r f =>
    cases f with
    | malformed => exact ⟨hon, hcl⟩
    | obj t =>
      by_cases ht : t = some "HEARTBEAT"
      · subst ht
        cases r with
        | false =>
          show ghostOnline (handleMessage st v false
            (InFrame.obj (some "HEARTBEAT"))).1 u
          rw [handleMessage_hb_down]
          exact ⟨hon, hcl⟩
        | true =>
          show ghostOnline (handleMessage st v true
            (InFrame.obj (some "HEARTBEAT"))).1 u
          rw [handleMessage_hb_up]
          refine ⟨?_, hcl⟩
          show mapLookup (mapSet st.presence v PStatus.online) u =
            some PStatus.online
          by_cases hv : u = v
          · subst hv
            exact mapLookup_set_self st.presence u PStatus.online
          · rw [mapLookup_set_ne st.presence v u PStatus.online hv]
            exact hon
      · show ghostOnline (handleMessage st v r (InFrame.obj t)).1 u
        rw [handleMessage_not_hb st v r t ht]
        exact ⟨hon, hcl⟩
  | close v =>
    refine ⟨hon, ?_⟩
    show mapLookup (mapDelete st.clients v) u = none
    rw [mapLookup_delete]
    by_cases hv : u = v
    · simp [hv]
    · rw [if_neg hv]
      exact hcl
  | sweepEv r =>
    cases r with
    | false =>
      refine ⟨?_, hcl⟩
      show mapLookup (sweepGo false st.redis st.now st.clients
        (mapKeys st.clients) st.presence).1 u = some PStatus.online
      rw [sweepGo_false_presence]
      exact hon
    | true =>
      refine ⟨?_, hcl⟩
      show mapLookup (sweepGo true st.redis st.now st.clients
        (mapKeys st.clients) st.presence).1 u = some PStatus.online
      rw [sweepGo_lookup_not_mem st.redis st.now st.clients u
        (mapKeys st.clients) st.presence
        (mapLookup_none_not_mem_keys st.clients u hcl)]
      exact hon
  | message ps pl => exact ⟨hon, hcl⟩
  | tick n => exact ⟨hon, hcl⟩

theorem ghostOnline_step_outputs (st : ServerState) (u : String) (ev : Ev)
    (h : ghostOnline st u) :
    ∀ o ∈ (stepFn st ev).2, ∀ c l,
      o = Output.send c (OutMsg.presenceUpdate l) → u ∈ l := by
  obtain ⟨hon, hcl⟩ := h
  intro o ho c l heq
  cases ev with
  | connect v sock =>
    have ho2 : o ∈ ([] : List Output) := ho
    simp at ho2
  | connectNoId sock =>
    have ho2 : o ∈ [Output.closeConn 4000 "Missing userId"] := ho
    have ho3 : o = Output.closeConn 4000 "Missing userId" := by simpa using ho2
    rw [ho3] at heq
    cases heq
  | frame v r f =>
    cases f with
    | malformed =>
      have ho2 : o ∈ ([] : List Output) := ho
      simp at ho2
    | obj t =>
      by_cases ht : t = some "HEARTBEAT"
      · subst ht
        cases r with
        | false =>
          have ho2 : o ∈ (handleMessage st v false
            (InFrame.obj (some "HEARTBEAT"))).2 := ho
          rw [handleMessage_hb_down] at ho2
          have ho3 : o = Output.uncaughtRejection := by simpa using ho2
          rw [ho3] at heq
          cases heq
        | true =>
          have ho2 : o ∈ (handleMessage st v true
            (InFrame.obj (some "HEARTBEAT"))).2 := ho
          rw [handleMessage_hb_up] at ho2
          have ho3 : o ∈ broadcastPresence st.clients
            (mapSet st.presence v PStatus.online) := ho2
          rcases broadcastPresence_outputs st.clients
            (mapSet st.presence v PStatus.online) o ho3 with ⟨c2, hc2⟩
          have hon1 : mapLookup (mapSet st.presence v PStatus.online) u =
              some PStatus.online := by
            by_cases hv : u = v
            · subst hv
              exact mapLookup_set_self st.presence u PStatus.online
            · rw [mapLookup_set_ne st.presence v u PStatus.online hv]
              exact hon
          have hsend : Output.send c (OutMsg.presenceUpdate l) =
              Output.send c2 (OutMsg.presenceUpdate
                (onlineUsersOf (mapSet st.presence v PStatus.online))) :=
            heq.symm.trans hc2
          injection hsend with hc hl
          injection hl with hl
          rw [hl]
          exact mem_onlineUsersOf (mapSet st.presence v PStatus.online) u hon1
      · have ho2 : o ∈ (handleMessage st v r (InFrame.obj t)).2 := ho
        rw [handleMessage_not_hb st v r t ht] at ho2
        simp at ho2
  | close v =>
    have ho2 : o ∈ ([] : List Output) := ho
    simp at ho2
  | sweepEv r =>
    cases r with
    | false =>
      have ho2 : o ∈ (sweepGo false st.redis st.now st.clients
        (mapKeys st.clients) st.presence).2 := ho
      have ho3 := sweepGo_false_outputs st.redis st.now st.clients
        (mapKeys st.clients) st.presence o ho2
      rw [ho3] at heq
      cases heq
    | true =>
      have ho2 : o ∈ (sweepGo true st.redis st.now st.clients
        (mapKeys st.clients) st.presence).2 := ho
      exact sweepGo_outputs_online st.redis st.now st.clients u
        (mapKeys st.clients) st.presence hon
        (mapLookup_none_not_mem_keys st.clients u hcl) o ho2 c l heq
  | message ps pl =>
    have ho2 : o ∈ fanoutNewMessage st.clients ps pl := ho
    rcases fanout_outputs_newMessage st.clients ps pl o ho2 with ⟨c2, hc2⟩
    have hsend : Output.send c (OutMsg.presenceUpdate l) =
        Output.send c2 (OutMsg.newMessage pl) := heq.symm.trans hc2
    injection hsend with hc hl
    cases hl
  | tick n =>
    have ho2 : o ∈ ([] : List Output) := ho
    simp at ho2

theorem ghostOnline_run (u : String) :
    ∀ (tr : List Ev) (st : ServerState), ghostOnline st u →
      (∀ ev ∈ tr, isConnectOf u ev = false) →
      ghostOnline (run st tr).1 u ∧
        ∀ o ∈ (run st tr).2, ∀ c l,
          o = Output.send c (OutMsg.presenceUpdate l) → u ∈ l := by
  intro tr
  induction tr with
  | nil =>
    intro st h _
    refine ⟨h, ?_⟩
    intro o ho
    simp [run] at ho
  | cons e es ih =>
    intro st h h3
    have he : isConnectOf u e = false := h3 e (List.mem_cons_self _ _)
    have hes : ∀ ev ∈ es, isConnectOf u ev = false :=
      fun ev hev => h3 ev (List.mem_cons_of_mem _ hev)
    have hstep := ghostOnline_step st u e h he
    have hrec := ih (stepFn st e).1 hstep hes
    refine ⟨hrec.1, ?_⟩
    intro o ho c l heq
    have ho2 : o ∈ (stepFn st e).2 ++ (run (stepFn st e).1 es).2 := ho
    rcases List.mem_append.1 ho2 with hx | hx
    · exact ghostOnline_step_outputs st u e ⟨h.1, h.2⟩ o hx c l heq
    · exact hrec.2 o hx c l heq

/-- C10: if identity u is cached ONLINE with no registry entry and the
subsequent event trace never reconnects u, then u stays cached ONLINE
after the whole trace — the sweep only examines registered identities
and nothing else ever demotes — so u appears in the snapshot and in
the onlineUsers payload of every PRESENCE_UPDATE emitted along the
trace. -/
theorem C10_ghost_stays_online (st : ServerState) (u : String) (tr : List Ev)
    (h1 : mapLookup st.presence u = some PStatus.online)
    (h2 : mapLookup st.clients u = none)
    (h3 : ∀ ev ∈ tr, isConnectOf u ev = false) :
    mapLookup (run st tr).1.presence u = some PStatus.online ∧
    u ∈ onlineUsersOf (run st tr).1.presence ∧
    ∀ o ∈ (run st tr).2, ∀ c l,
      o = Output.send c (OutMsg.presenceUpdate l) → u ∈ l := by
  have hrun := ghostOnline_run u tr st ⟨h1, h2⟩ h3
  exact ⟨hrun.1.1, mem_onlineUsersOf (run st tr).1.presence u hrun.1.1, hrun.2⟩

def c10pl : MsgPayload := ⟨"dm_u1_u2", "m2", "u2", "yo", "t2"⟩

def c10st : ServerState := ⟨[], [("u1", PStatus.online)], [], 0⟩

def c10tr : List Ev :=
  [Ev.sweepEv true, Ev.connect "u2" 5,
   Ev.frame "u2" true (InFrame.obj (some "HEARTBEAT")), Ev.tick 50,
   Ev.sweepEv true, Ev.close "u2", Ev.message ["u1", "u2"] c10pl]

/-- C10 witness: after a concrete trace with sweeps, the full
lifecycle of another user and a message fanout, the disconnected u1 is still ONLINE and
named in every PRESENCE_UPDATE payload the trace produced. -/
theorem C10_ghost_witness :
    (mapLookup c10st.presence "u1" = some PStatus.online ∧
      mapLookup c10st.clients "u1" = none ∧
      ∀ ev ∈ c10tr, isConnectOf "u1" ev = false) ∧
    (mapLookup (run c10st c10tr).1.presence "u1" = some PStatus.online ∧
      "u1" ∈ onlineUsersOf (run c10st c10tr).1.presence ∧
      ∀ o ∈ (run c10st c10tr).2, ∀ c l,
        o = Output.send c (OutMsg.presenceUpdate l) → "u1" ∈ l) :=
  ⟨⟨by decide, by decide, by decide⟩,
    C10_ghost_stays_online c10st "u1" c10tr (by decide) (by decide) (by decide)⟩

end SocketChat
